import Mathlib

/-!
Verification of the measurement-aggregation and boundary-classification
pipeline of the gRPC-over-HTTP3 benchmark repository.

The embedded functions follow `scripts/ultra_final_analysis.py`
(`run_ultra_reliable_benchmark`, `detect_ultra_boundaries`,
`is_significant_ultra_relaxed`), `scripts/final_boundary_analysis.py`
(`is_significant_relaxed`) and `scripts/improved_boundary_analysis.py`
(`run_reliable_benchmark`, `is_statistically_significant`).  Python floats
are modelled as exact rationals; `np.mean` and `np.std` (population
standard deviation, `ddof = 0`) are translated literally, with the
square root eliminated by squaring both sides of the one comparison in
which it occurs (both sides are nonnegative there).
-/

namespace Boundary

/-- `np.mean(throughputs)`: arithmetic mean of the samples. -/
def mean (l : List ℚ) : ℚ := l.sum / l.length

/-- Sum of squared deviations from the mean of `l`. -/
def sqDevSum (l : List ℚ) : ℚ := (l.map (fun x => (x - mean l) ^ 2)).sum

/-- Square of `np.std(throughputs)` (population standard deviation,
`ddof = 0`): the mean of the squared deviations. -/
def popVar (l : List ℚ) : ℚ := sqDevSum l / l.length

/-- Embeds the per-sample test `abs(t - throughput_mean) <= k * throughput_std`
of `run_ultra_reliable_benchmark` (ultra_final_analysis.py line 166, with
`k = 2`) and `run_reliable_benchmark` (improved_boundary_analysis.py line 72,
with `k = 3`), where `throughput_std` is the square root of `popVar l`.
Stated in the equivalent squared form so the whole development stays in ℚ:
for `0 ≤ k` both sides of the original comparison are nonnegative, hence
`|t - mean| ≤ k * sqrt(var) ↔ (t - mean)^2 ≤ k^2 * var`. -/
def keepSample (l : List ℚ) (k t : ℚ) : Bool :=
  decide ((t - mean l) ^ 2 ≤ k ^ 2 * popVar l)

/-- The subsequence of samples whose deviation from the mean of the full,
unfiltered input is at most `k` standard deviations
(ultra_final_analysis.py lines 163-167). -/
def filterOutliers (l : List ℚ) (k : ℚ) : List ℚ :=
  l.filter (keepSample l k)

/-- Outlier removal with the insufficient-valid-samples fallback:
if fewer than `minValid` samples survive, the original unfiltered list is
used instead (ultra_final_analysis.py lines 171-173 with `minValid = 1`;
improved_boundary_analysis.py lines 77-79 with `minValid = 2`). -/
def filterWithFallback (l : List ℚ) (k : ℚ) (minValid : ℕ) : List ℚ :=
  let kept := filterOutliers l k
  if kept.length < minValid then l else kept

/-- `UltraFinalAnalyzer.is_significant_ultra_relaxed`
(ultra_final_analysis.py lines 466-481): margins `1.28 * std` per variant,
significant when the gap between the means exceeds 30% of the summed
margins.  The `confidence_level` argument is accepted and ignored, exactly
as in the source. -/
def is_significant_ultra_relaxed
    (h2_mean h3_mean h2_std h3_std confidence_level : ℚ) : Bool :=
  let h2_ci := 1.28 * h2_std
  let h3_ci := 1.28 * h3_std
  let mean_diff := |h2_mean - h3_mean|
  let std_sum := h2_ci + h3_ci
  decide (mean_diff > std_sum * 0.3)

/-- `FinalBoundaryAnalyzer.is_significant_relaxed`
(final_boundary_analysis.py lines 247-262): margins `1.645 * std`,
significant when the gap exceeds 50% of the summed margins.
`confidence_level` is accepted and ignored, as in the source. -/
def is_significant_relaxed
    (h2_mean h3_mean h2_std h3_std confidence_level : ℚ) : Bool :=
  let h2_ci := 1.645 * h2_std
  let h3_ci := 1.645 * h3_std
  let mean_diff := |h2_mean - h3_mean|
  let std_sum := h2_ci + h3_ci
  decide (mean_diff > std_sum * 0.5)

/-- `ImprovedBoundaryAnalyzer.is_statistically_significant`
(improved_boundary_analysis.py lines 247-258): non-overlap of the
`1.96 * std` confidence intervals.  `confidence_level` is accepted and
ignored, as in the source. -/
def is_statistically_significant
    (h2_mean h3_mean h2_std h3_std confidence_level : ℚ) : Bool :=
  let h2_ci := 1.96 * h2_std
  let h3_ci := 1.96 * h3_std
  decide (|h2_mean - h3_mean| > h2_ci + h3_ci)

/-- The two protocol variants compared by the pipeline. -/
inductive Protocol where
  | http2
  | http3
  deriving DecidableEq, Repr

/-- Outcome of one condition in `detect_ultra_boundaries`:
whether the comparison was judged significant, whether a boundary record
was appended, the relative difference (computed only on the significant
path, as in the source), and the `superior_protocol` field of the record
(present only when a record is appended). -/
structure CompResult where
  significant : Bool
  boundaryDetected : Bool
  diff_pct : Option ℚ
  superior : Option Protocol
  deriving DecidableEq, Repr

/-- The per-condition body of `UltraFinalAnalyzer.detect_ultra_boundaries`
(ultra_final_analysis.py lines 437-460): run the relaxed significance
test; if significant, compute
`diff_pct = (h2_throughput - h3_throughput) / h3_throughput * 100` and
append a boundary record when `|diff_pct| <= threshold`, whose superior
protocol is HTTP/3 when `diff_pct < 0` and HTTP/2 otherwise. -/
def classifyCondition
    (h2t h3t h2s h3s threshold confidence_level : ℚ) : CompResult :=
  if is_significant_ultra_relaxed h2t h3t h2s h3s confidence_level then
    let diff_pct := (h2t - h3t) / h3t * 100
    if |diff_pct| ≤ threshold then
      { significant := true
        boundaryDetected := true
        diff_pct := some diff_pct
        superior := some (if diff_pct < 0 then Protocol.http3 else Protocol.http2) }
    else
      { significant := true
        boundaryDetected := false
        diff_pct := some diff_pct
        superior := none }
  else
    { significant := false
      boundaryDetected := false
      diff_pct := none
      superior := none }

theorem sum_map_sub_const (T : List ℚ) (m : ℚ) :
    (T.map (fun x => x - m)).sum = T.sum - T.length * m := by
  induction T with
  | nil => simp
  | cons a t ih =>
    simp only [List.map_cons, List.sum_cons, List.length_cons, Nat.cast_add, Nat.cast_one, ih]
    ring

theorem sum_sq_nonneg (xs : List ℚ) : 0 ≤ (xs.map (fun x => x ^ 2)).sum := by
  refine List.sum_nonneg ?_
  intro x hx
  obtain ⟨y, _, rfl⟩ := List.mem_map.mp hx
  positivity

theorem sqDevSum_nonneg (l : List ℚ) : 0 ≤ sqDevSum l := by
  refine List.sum_nonneg ?_
  intro x hx
  obtain ⟨y, _, rfl⟩ := List.mem_map.mp hx
  positivity

theorem popVar_nonneg (l : List ℚ) : 0 ≤ popVar l :=
  div_nonneg (sqDevSum_nonneg l) (Nat.cast_nonneg _)

/-- Cauchy-Schwarz for list sums: the square of the sum is at most the
length times the sum of squares. -/
theorem sq_sum_le_length_mul_sum_sq (xs : List ℚ) :
    xs.sum ^ 2 ≤ xs.length * (xs.map (fun x => x ^ 2)).sum := by
  induction xs with
  | nil => simp
  | cons a t ih =>
    rcases eq_or_ne t [] with rfl | ht
    · norm_num
    · simp only [List.sum_cons, List.map_cons, List.length_cons, Nat.cast_add, Nat.cast_one]
      have hq : 0 ≤ (t.map (fun x => x ^ 2)).sum := sum_sq_nonneg t
      have hL1 : (1 : ℚ) ≤ (t.length : ℚ) := by
        have : 1 ≤ t.length := Nat.one_le_iff_ne_zero.mpr (by simpa [List.length_eq_zero] using ht)
        exact_mod_cast this
      have hv : (0 : ℚ) ≤ (t.length : ℚ) * (t.map (fun x => x ^ 2)).sum - t.sum ^ 2 := by
        linarith
      nlinarith [sq_nonneg ((t.length : ℚ) * a - t.sum), hv, hL1, hq,
        mul_nonneg (by linarith : (0:ℚ) ≤ (t.length : ℚ)) hv]

/-- Samuelson's inequality: no member of a list deviates from the mean by
more than `sqrt(length - 1)` population standard deviations; stated in the
squared form `(s - mean)^2 * n ≤ (n - 1) * sqDevSum`. -/
theorem samuelson (l : List ℚ) (s : ℚ) (hs : s ∈ l) :
    (s - mean l) ^ 2 * l.length ≤ ((l.length : ℚ) - 1) * sqDevSum l := by
  obtain ⟨l₁, l₂, rfl⟩ := List.append_of_mem hs
  set m := mean (l₁ ++ s :: l₂) with hm
  have hlen : ((l₁ ++ s :: l₂).length : ℚ) = (l₁.length : ℚ) + (l₂.length : ℚ) + 1 := by
    push_cast [List.length_append, List.length_cons]
    ring
  have hlen0 : ((l₁ ++ s :: l₂).length : ℚ) ≠ 0 := by
    rw [hlen]; positivity
  have hDsum : ((l₁ ++ s :: l₂).map (fun x => x - m)).sum = 0 := by
    rw [sum_map_sub_const, hm, mean]
    field_simp
  have hsplit : ((l₁ ++ s :: l₂).map (fun x => x - m)).sum =
      (l₁.map (fun x => x - m)).sum + ((s - m) + (l₂.map (fun x => x - m)).sum) := by
    simp [List.map_append, List.sum_append]
  have hRsum : (l₁.map (fun x => x - m)).sum + (l₂.map (fun x => x - m)).sum = m - s := by
    rw [hsplit] at hDsum
    linarith
  have hC := sq_sum_le_length_mul_sum_sq (l₁.map (fun x => x - m) ++ l₂.map (fun x => x - m))
  simp only [List.sum_append, List.length_append, List.length_map, List.map_append,
    List.map_map, Function.comp_def] at hC
  rw [hRsum] at hC
  have hS : sqDevSum (l₁ ++ s :: l₂) =
      (l₁.map (fun x => (x - m) ^ 2)).sum + ((s - m) ^ 2 + (l₂.map (fun x => (x - m) ^ 2)).sum) := by
    rw [sqDevSum, ← hm]
    simp [List.map_append, List.sum_append]
  rw [hlen, hS]
  push_cast at hC
  nlinarith [hC]

/-- Whenever `k^2` is at least `length - 1`, every sample passes the
`k`-standard-deviation test against the full list, so the outlier filter
returns its input unchanged. -/
theorem filterOutliers_eq_self_of_small (l : List ℚ) (k : ℚ) (hl : l ≠ [])
    (hk : ((l.length : ℚ) - 1) ≤ k ^ 2) : filterOutliers l k = l := by
  refine List.filter_eq_self.mpr ?_
  intro s hs
  simp only [keepSample, decide_eq_true_eq]
  have hsam := samuelson l s hs
  have hS := sqDevSum_nonneg l
  have hn : (0 : ℚ) < (l.length : ℚ) := by
    exact_mod_cast List.length_pos.mpr hl
  have hbound : (s - mean l) ^ 2 * l.length ≤ k ^ 2 * sqDevSum l :=
    le_trans hsam (mul_le_mul_of_nonneg_right hk hS)
  rw [popVar, ← mul_div_assoc, le_div_iff₀ hn]
  exact hbound

/-- C1 counterexample: on the spec's own scenario
`[50, 52, 300, 51, 49]` with `k = 2` (ultra pipeline, minimum 1 valid
sample), the sample 300 is RETAINED — its deviation 199.6 from the mean
100.4 is within `2 * std ≈ 199.61` — and the aggregate mean over the
retained samples is exactly `502/5 = 100.4`, not approximately 50.5. -/
theorem C1_counterexample :
    (300 : ℚ) ∈ filterWithFallback [50, 52, 300, 51, 49] 2 1 ∧
    mean (filterWithFallback [50, 52, 300, 51, 49] 2 1) = 502 / 5 := by
  have h : filterWithFallback [50, 52, 300, 51, 49] 2 1 = [50, 52, 300, 51, 49] := by
    norm_num [filterWithFallback, filterOutliers, keepSample, popVar, sqDevSum, mean,
      List.filter_cons, List.filter_nil, List.sum_cons, List.sum_nil,
      List.map_cons, List.map_nil]
  rw [h]
  constructor
  · norm_num
  · norm_num [mean, List.sum_cons, List.sum_nil]

/-- C1 amended: for the input `[50, 52, 300, 51, 49]` with `k = 2`, the
outlier filter removes nothing (the whole list survives, 300 included,
since `|300 - 100.4| = 199.6 ≤ 2 * std`), and the aggregate mean over the
retained samples is exactly `502/5 = 100.4`. -/
theorem C1_amended :
    filterWithFallback [50, 52, 300, 51, 49] 2 1 = [50, 52, 300, 51, 49] ∧
    mean [50, 52, 300, 51, 49] = 502 / 5 := by
  constructor
  · norm_num [filterWithFallback, filterOutliers, keepSample, popVar, sqDevSum, mean,
      List.filter_cons, List.filter_nil, List.sum_cons, List.sum_nil,
      List.map_cons, List.map_nil]
  · norm_num [mean, List.sum_cons, List.sum_nil]

/-- C6: for all means and standard deviations, the ultra-relaxed tester
returns true iff `|a.mean - b.mean| > 0.3 * (1.28 * a.std + 1.28 * b.std)`
and the relaxed tester of the final variant returns true iff
`|a.mean - b.mean| > 0.5 * (1.645 * a.std + 1.645 * b.std)`, for any
`confidence_level` argument. -/
theorem C6_relaxed_ratio_policy (am bm sa sb c : ℚ) :
    (is_significant_ultra_relaxed am bm sa sb c = true ↔
      |am - bm| > 0.3 * (1.28 * sa + 1.28 * sb)) ∧
    (is_significant_relaxed am bm sa sb c = true ↔
      |am - bm| > 0.5 * (1.645 * sa + 1.645 * sb)) := by
  constructor
  · simp only [is_significant_ultra_relaxed, decide_eq_true_eq]
    constructor <;> intro h <;> linarith
  · simp only [is_significant_relaxed, decide_eq_true_eq]
    constructor <;> intro h <;> linarith

/-- C7: the non-overlap tester at `z = 1.96` returns true iff
`|a.mean - b.mean| > 1.96 * a.std + 1.96 * b.std`; in particular it
returns true at `(120, 2)` vs `(80, 2)` and false at `(101, 5)` vs
`(100, 5)` (with `confidence = 0.95`). -/
theorem C7_non_overlap_policy :
    (∀ am bm sa sb c : ℚ,
      is_statistically_significant am bm sa sb c = true ↔
        |am - bm| > 1.96 * sa + 1.96 * sb) ∧
    is_statistically_significant 120 80 2 2 (19 / 20) = true ∧
    is_statistically_significant 101 100 5 5 (19 / 20) = false := by
  refine ⟨fun am bm sa sb c => ?_, ?_, ?_⟩
  · simp only [is_statistically_significant, decide_eq_true_eq]
  · simp only [is_statistically_significant, decide_eq_true_eq]
    norm_num
  · simp only [is_statistically_significant, decide_eq_false_iff_not]
    norm_num

/-- C10: the significance verdict does not depend on the
`confidence_level` argument: for any two confidence levels the ultra
tester and the relaxed tester each return the same boolean (the
z-multiplier is hard-coded). -/
theorem C10_confidence_independent (am bm sa sb c1 c2 : ℚ) :
    is_significant_ultra_relaxed am bm sa sb c1 =
      is_significant_ultra_relaxed am bm sa sb c2 ∧
    is_significant_relaxed am bm sa sb c1 =
      is_significant_relaxed am bm sa sb c2 :=
  ⟨rfl, rfl⟩

/-- C2: every sample retained by the outlier filter — when the fallback
path was not taken, i.e. at least `minValid` samples survived — satisfies
`|s - mean| ≤ k * std_dev`, with mean and standard deviation computed once
over the full unfiltered input. -/
theorem C2_outlier_bound (l : List ℚ) (k : ℚ) (minValid : ℕ) (s : ℚ)
    (hk : 0 ≤ k) (hm : minValid ≤ (filterOutliers l k).length)
    (hs : s ∈ filterWithFallback l k minValid) :
    |(s : ℝ) - (mean l : ℝ)| ≤ (k : ℝ) * Real.sqrt ((popVar l : ℝ)) := by
  have hres : filterWithFallback l k minValid = filterOutliers l k := by
    simp only [filterWithFallback]
    rw [if_neg (Nat.not_lt.mpr hm)]
  rw [hres] at hs
  have hkeep : keepSample l k s = true := List.of_mem_filter hs
  have hq : (s - mean l) ^ 2 ≤ k ^ 2 * popVar l := by
    simpa [keepSample] using hkeep
  have hR : ((s : ℝ) - (mean l : ℝ)) ^ 2 ≤ (k : ℝ) ^ 2 * ((popVar l : ℝ)) := by
    exact_mod_cast hq
  calc |(s : ℝ) - (mean l : ℝ)|
      = Real.sqrt (((s : ℝ) - (mean l : ℝ)) ^ 2) := (Real.sqrt_sq_eq_abs _).symm
    _ ≤ Real.sqrt ((k : ℝ) ^ 2 * ((popVar l : ℝ))) := Real.sqrt_le_sqrt hR
    _ = (k : ℝ) * Real.sqrt ((popVar l : ℝ)) := by
        rw [Real.sqrt_mul (sq_nonneg _), Real.sqrt_sq (by exact_mod_cast hk)]

/-- C2 witness: concrete instance `l = [1, 2, 3]`, `k = 2`,
`minValid = 1`, `s = 1`. -/
theorem C2_witness :
    (0 : ℚ) ≤ 2 ∧ 1 ≤ (filterOutliers [1, 2, 3] 2).length ∧
    (1 : ℚ) ∈ filterWithFallback [1, 2, 3] 2 1 ∧
    |((1 : ℚ) : ℝ) - (mean [1, 2, 3] : ℝ)| ≤ ((2 : ℚ) : ℝ) * Real.sqrt ((popVar [1, 2, 3] : ℝ)) := by
  have hfilter : filterOutliers [1, 2, 3] 2 = [1, 2, 3] := by
    norm_num [filterOutliers, keepSample, popVar, sqDevSum, mean,
      List.filter_cons, List.filter_nil, List.sum_cons, List.sum_nil,
      List.map_cons, List.map_nil]
  have hk : (0 : ℚ) ≤ 2 := by norm_num
  have hm : 1 ≤ (filterOutliers [1, 2, 3] 2).length := by rw [hfilter]; norm_num
  have hs : (1 : ℚ) ∈ filterWithFallback [1, 2, 3] 2 1 := by
    simp only [filterWithFallback]
    rw [if_neg (Nat.not_lt.mpr hm), hfilter]
    norm_num
  exact ⟨hk, hm, hs, C2_outlier_bound [1, 2, 3] 2 1 1 hk hm hs⟩

/-- C3: if filtering would leave fewer than the configured minimum number
of samples, the filter falls back to the full unfiltered set; for any
nonempty input and minimum at least 1 the result has between 1 and
`total_count` samples. -/
theorem C3_fallback_invariants (l : List ℚ) (k : ℚ) (minValid : ℕ)
    (hl : l ≠ []) (hm : 1 ≤ minValid) :
    ((filterOutliers l k).length < minValid → filterWithFallback l k minValid = l) ∧
    1 ≤ (filterWithFallback l k minValid).length ∧
    (filterWithFallback l k minValid).length ≤ l.length := by
  refine ⟨fun hlt => ?_, ?_, ?_⟩
  · simp only [filterWithFallback]
    rw [if_pos hlt]
  · simp only [filterWithFallback]
    split
    · exact List.length_pos.mpr hl
    · next h => exact le_trans hm (Nat.le_of_not_lt h)
  · simp only [filterWithFallback]
    split
    · exact le_refl _
    · exact List.length_filter_le _ _

/-- C3 witness: concrete instance `l = [5, 6]`, `k = 2`, `minValid = 1`
(the ultra variant) and, separately applied, `minValid = 2` (the improved
variant). -/
theorem C3_witness :
    (([5, 6] : List ℚ) ≠ [] ∧ 1 ≤ 1) ∧
    (((filterOutliers [5, 6] 2).length < 1 → filterWithFallback [5, 6] 2 1 = [5, 6]) ∧
      1 ≤ (filterWithFallback [5, 6] 2 1).length ∧
      (filterWithFallback [5, 6] 2 1).length ≤ ([5, 6] : List ℚ).length) ∧
    (((filterOutliers [5, 6] 3).length < 2 → filterWithFallback [5, 6] 3 2 = [5, 6]) ∧
      1 ≤ (filterWithFallback [5, 6] 3 2).length ∧
      (filterWithFallback [5, 6] 3 2).length ≤ ([5, 6] : List ℚ).length) := by
  have hl : ([5, 6] : List ℚ) ≠ [] := by simp
  exact ⟨⟨hl, le_refl 1⟩, C3_fallback_invariants [5, 6] 2 1 hl (le_refl 1),
    C3_fallback_invariants [5, 6] 3 2 hl (by norm_num)⟩

/-- C5 counterexample: swapping the two variants does NOT leave the
boundary classification unchanged.  With means 100 vs 90, zero standard
deviations, threshold 10% and confidence 0.8, both orientations are
significant, but only the swapped orientation records a boundary: the
relative difference is `(100-90)/90*100 ≈ 11.1% > 10%` one way and
`(90-100)/100*100 = -10%` (within threshold) the other way, because its
denominator is the second argument's mean and changes under the swap. -/
theorem C5_counterexample :
    (classifyCondition 100 90 0 0 10 (4 / 5)).significant = true ∧
    (classifyCondition 90 100 0 0 10 (4 / 5)).significant = true ∧
    (classifyCondition 100 90 0 0 10 (4 / 5)).boundaryDetected = false ∧
    (classifyCondition 90 100 0 0 10 (4 / 5)).boundaryDetected = true := by
  have h1 : is_significant_ultra_relaxed 100 90 0 0 (4 / 5) = true := by
    simp only [is_significant_ultra_relaxed, decide_eq_true_eq]
    norm_num
  have h2 : is_significant_ultra_relaxed 90 100 0 0 (4 / 5) = true := by
    simp only [is_significant_ultra_relaxed, decide_eq_true_eq]
    norm_num
  have hd1 : ¬ |((100 : ℚ) - 90) / 90 * 100| ≤ 10 := by
    rw [not_le]
    exact lt_abs.mpr (Or.inl (by norm_num))
  have hd2 : |((90 : ℚ) - 100) / 100 * 100| ≤ 10 := by
    rw [abs_le]
    constructor <;> norm_num
  refine ⟨?_, ?_, ?_, ?_⟩
  · simp only [classifyCondition]
    rw [if_pos h1, if_neg hd1]
  · simp only [classifyCondition]
    rw [if_pos h2, if_pos hd2]
  · simp only [classifyCondition]
    rw [if_pos h1, if_neg hd1]
  · simp only [classifyCondition]
    rw [if_pos h2, if_pos hd2]

/-- C5 amended: swapping the two variants (exchanging means and standard
deviations) leaves the significance verdict unchanged — the tester is
symmetric — but not the boundary classification, because the relative
difference is recomputed with the other variant's mean as denominator and
is therefore not exactly negated under the swap. -/
theorem C5_significance_symmetric (am bm sa sb c : ℚ) :
    is_significant_ultra_relaxed am bm sa sb c =
      is_significant_ultra_relaxed bm am sb sa c := by
  simp only [is_significant_ultra_relaxed]
  refine decide_eq_decide.mpr ?_
  rw [abs_sub_comm]
  constructor <;> intro h <;> linarith

/-- C8: whenever the per-condition classifier appends a boundary record,
the comparison was judged significant, and the record's superior protocol
is the variant with the larger throughput mean (assuming a positive
baseline mean and nonnegative standard deviations, as hold for
throughput aggregates). -/
theorem C8_boundary_record_sound
    (h2t h3t h2s h3s thr c : ℚ) (h3pos : 0 < h3t) (hs2 : 0 ≤ h2s) (hs3 : 0 ≤ h3s)
    (hb : (classifyCondition h2t h3t h2s h3s thr c).boundaryDetected = true) :
    (classifyCondition h2t h3t h2s h3s thr c).significant = true ∧
    ((h3t < h2t ∧ (classifyCondition h2t h3t h2s h3s thr c).superior = some Protocol.http2) ∨
     (h2t < h3t ∧ (classifyCondition h2t h3t h2s h3s thr c).superior = some Protocol.http3)) := by
  by_cases hsig : is_significant_ultra_relaxed h2t h3t h2s h3s c = true
  case neg => simp [classifyCondition, hsig] at hb
  have hgap : |h2t - h3t| > (1.28 * h2s + 1.28 * h3s) * 0.3 := by
    simpa [is_significant_ultra_relaxed, decide_eq_true_eq] using hsig
  have hne : h2t ≠ h3t := by
    intro he
    rw [he, sub_self, abs_zero] at hgap
    nlinarith
  by_cases hth : |(h2t - h3t) / h3t * 100| ≤ thr
  case neg => simp [classifyCondition, hsig, hth] at hb
  rcases lt_or_gt_of_ne hne with hlt | hgt
  · have hdneg : (h2t - h3t) / h3t * 100 < 0 := by
      apply mul_neg_of_neg_of_pos
      · exact div_neg_of_neg_of_pos (by linarith) h3pos
      · norm_num
    refine ⟨by simp [classifyCondition, hsig, hth], Or.inr ⟨hlt, ?_⟩⟩
    simp [classifyCondition, hsig, hth, hdneg]
  · have hdpos : 0 < (h2t - h3t) / h3t * 100 := by
      apply mul_pos
      · exact div_pos (by linarith) h3pos
      · norm_num
    refine ⟨by simp [classifyCondition, hsig, hth], Or.inl ⟨hgt, ?_⟩⟩
    simp [classifyCondition, hsig, hth, not_lt.mpr (le_of_lt hdpos)]

/-- C8 witness: concrete instance with means 100 vs 95, standard
deviations 1, threshold 10%, confidence 0.8: a boundary is recorded and
HTTP/2 (the larger mean) is named superior. -/
theorem C8_witness :
    ((0 : ℚ) < 95 ∧ (0 : ℚ) ≤ 1 ∧ (0 : ℚ) ≤ 1 ∧
      (classifyCondition 100 95 1 1 10 (4 / 5)).boundaryDetected = true) ∧
    ((classifyCondition 100 95 1 1 10 (4 / 5)).significant = true ∧
      (((95 : ℚ) < 100 ∧ (classifyCondition 100 95 1 1 10 (4 / 5)).superior = some Protocol.http2) ∨
       ((100 : ℚ) < 95 ∧ (classifyCondition 100 95 1 1 10 (4 / 5)).superior = some Protocol.http3))) := by
  have h3pos : (0 : ℚ) < 95 := by norm_num
  have hs2 : (0 : ℚ) ≤ 1 := by norm_num
  have hs3 : (0 : ℚ) ≤ 1 := by norm_num
  have hsig : is_significant_ultra_relaxed 100 95 1 1 (4 / 5) = true := by
    simp only [is_significant_ultra_relaxed, decide_eq_true_eq]
    norm_num
  have hth : |((100 : ℚ) - 95) / 95 * 100| ≤ 10 := by
    rw [abs_le]
    constructor <;> norm_num
  have hb : (classifyCondition 100 95 1 1 10 (4 / 5)).boundaryDetected = true := by
    simp only [classifyCondition]
    rw [if_pos hsig, if_pos hth]
  exact ⟨⟨h3pos, hs2, hs3, hb⟩, C8_boundary_record_sound 100 95 1 1 10 (4 / 5) h3pos hs2 hs3 hb⟩

/-- C9: for every nonempty list of at most 5 samples the 2-sigma filter
keeps every sample (by Samuelson's inequality, `(s - mean)^2 ≤ (n-1) *
popVar ≤ 4 * popVar`), so it is the identity and the
insufficient-valid-samples fallback of the ultra variant (minimum 1) is
unreachable; likewise the 3-sigma filter is the identity for every list
of at most 10 samples. -/
theorem C9_small_sample_identity (l : List ℚ) (hl : l ≠ []) :
    (l.length ≤ 5 →
      filterOutliers l 2 = l ∧ filterWithFallback l 2 1 = l ∧
      ¬ (filterOutliers l 2).length < 1) ∧
    (l.length ≤ 10 → filterOutliers l 3 = l) := by
  constructor
  · intro h5
    have hq : ((l.length : ℚ) - 1) ≤ (2 : ℚ) ^ 2 := by
      have : (l.length : ℚ) ≤ 5 := by exact_mod_cast h5
      norm_num
      linarith
    have h : filterOutliers l 2 = l := filterOutliers_eq_self_of_small l 2 hl hq
    have hpos : 0 < l.length := List.length_pos.mpr hl
    refine ⟨h, ?_, ?_⟩
    · simp only [filterWithFallback, h]
      rw [if_neg (Nat.not_lt.mpr hpos)]
    · rw [h]
      exact Nat.not_lt.mpr hpos
  · intro h10
    refine filterOutliers_eq_self_of_small l 3 hl ?_
    have : (l.length : ℚ) ≤ 10 := by exact_mod_cast h10
    norm_num
    linarith

/-- C9 witness: the two-element list `[4, 7]`. -/
theorem C9_witness :
    (([4, 7] : List ℚ) ≠ [] ∧ ([4, 7] : List ℚ).length ≤ 5 ∧ ([4, 7] : List ℚ).length ≤ 10) ∧
    (filterOutliers [4, 7] 2 = [4, 7] ∧ filterWithFallback [4, 7] 2 1 = [4, 7] ∧
      ¬ (filterOutliers [4, 7] 2).length < 1) ∧
    filterOutliers [4, 7] 3 = [4, 7] := by
  have hl : ([4, 7] : List ℚ) ≠ [] := by simp
  have h := C9_small_sample_identity [4, 7] hl
  exact ⟨⟨hl, by norm_num, by norm_num⟩, h.1 (by norm_num), h.2 (by norm_num)⟩

end Boundary
